import Mathlib

/-
Verification of the leave-management calculation core of the managehub
repository (Django app `leaves`): duration calculation, entitlement
summaries, eligibility checking, the request lifecycle, balance
recomputation and year-end carry-over.

Modelling conventions:
* Dates are Rata Die day numbers (`Int`); day 1 is Monday 0001-01-01 of
  the proleptic Gregorian calendar, so Python's `date.weekday()`
  (Monday = 0 .. Sunday = 6) becomes `pyWeekday`, and `yearOf` extracts
  the Gregorian year of a day number.
* Django `Decimal` day counts become `Rat`.
* Database tables become lists of records inside a `DB` structure; ORM
  queries become list filters, `find?`, maps and sums.  Saving a model
  instance becomes replacing the matching row (by primary key) in the
  list; creating appends.
* `timezone.now()` becomes an explicit `today`/`now` parameter.
-/

unseal Rat.add Rat.sub Rat.mul Rat.inv

namespace ManageHub

/-- Status values of `LeaveRequest.STATUS_CHOICES` in `leaves/models.py`. -/
inductive Status where
  | PENDING
  | APPROVED
  | REJECTED
  | CANCELLED
deriving DecidableEq, Repr

/-- Leave type reference data (`LeaveType` in `leaves/models.py`). -/
structure LeaveType where
  id : Nat
  code : String
  is_paid : Bool
  affects_entitlement : Bool
  is_half_day : Bool
  requires_approval : Bool
  is_active : Bool
deriving DecidableEq, Repr

/-- Holiday calendar row (`HolidayCalendar` in `leaves/models.py`). -/
structure HolidayCalendar where
  name : String
  date : Int
  is_recurring : Bool
  is_active : Bool
deriving DecidableEq, Repr

/-- Department row (`Department` in `leaves/models.py`). -/
structure Department where
  id : Nat
  name : String
  description : String
  is_active : Bool
deriving DecidableEq, Repr

/-- Employee annual entitlement row (`EmployeeEntitlement` in `leaves/models.py`). -/
structure EmployeeEntitlement where
  employee : Nat
  department : Nat
  year : Int
  annual_holiday_entitlement : Rat
  days_carried_over : Rat
  time_in_lieu : Rat
deriving DecidableEq, Repr

/-- Leave request row (`LeaveRequest` in `leaves/models.py`). -/
structure LeaveRequest where
  id : Nat
  employee : Nat
  leave_type : Nat
  start_date : Int
  end_date : Int
  duration_days : Rat
  reason : String
  status : Status
  approved_by : Option Nat
  approved_at : Option Int
  rejection_reason : String
  created_by : Nat
deriving DecidableEq, Repr

/-- Leave balance row (`LeaveBalance` in `leaves/models.py`). -/
structure LeaveBalance where
  employee : Nat
  leave_type : Nat
  year : Int
  allocated_days : Rat
  used_days : Rat
  pending_days : Rat
deriving DecidableEq, Repr

/-- Audit row (`LeaveStatusHistory` in `leaves/models.py`). -/
structure LeaveStatusHistory where
  leave_request : Nat
  previous_status : Option Status
  new_status : Status
  changed_by : Nat
  reason : String
deriving DecidableEq, Repr

/-- Python `date.weekday()`: Monday = 0 .. Sunday = 6, on Rata Die day
numbers (day 1 = Monday 0001-01-01). -/
def pyWeekday (d : Int) : Int :=
  (d - 1).emod 7

/-- Saturday/Sunday test used by the calculation paths
(`current_date.weekday() in [5, 6]` in `leaves/services.py` and
`leaves/models.py`). -/
def isWeekendDay (d : Int) : Bool :=
  decide (pyWeekday d = 5) || decide (pyWeekday d = 6)

/-- Gregorian year of a Rata Die day number (standard civil-from-days
conversion, floor divisions throughout).  Rata Die 719163 is 1970-01-01. -/
def yearOf (rd : Int) : Int :=
  let z := rd - 719163 + 719468
  let era := z.ediv 146097
  let doe := z - era * 146097
  let yoe := (doe - doe.ediv 1460 + doe.ediv 36524 - doe.ediv 146096).ediv 365
  let y := yoe + era * 400
  let doy := doe - (365 * yoe + yoe.ediv 4 - yoe.ediv 100)
  let mp := (5 * doy + 2).ediv 153
  let m := mp + (if mp < 10 then 3 else -9)
  y + (if m ≤ 2 then 1 else 0)

/-- Active `HolidayCalendar` dates inside the inclusive range, as gathered
by `LeaveCalculationService.calculate_leave_duration`
(`HolidayCalendar.objects.filter(date__range=[start_date, end_date],
is_active=True)` in `leaves/services.py`). -/
def holidaysInRange (hols : List HolidayCalendar) (start_date end_date : Int) : List Int :=
  (hols.filter fun h => h.is_active && decide (start_date ≤ h.date) && decide (h.date ≤ end_date)).map
    fun h => h.date

/-- Membership of a day in the set of active holiday dates, range
restriction removed (used to characterise the loops). -/
def isActiveHoliday (hols : List HolidayCalendar) (d : Int) : Bool :=
  hols.any fun h => h.is_active && decide (h.date = d)

/-- Day loop of `LeaveCalculationService.calculate_leave_duration`:
counts the days s, s+1, ..., s+n-1, skipping weekends and holidays as
requested; every counted day adds exactly 1. -/
def countDays (holidays : List Int) (exclude_weekends exclude_holidays : Bool) (s : Int) : Nat → Nat
  | 0 => 0
  | n + 1 =>
    (if (exclude_weekends && isWeekendDay s) || (exclude_holidays && holidays.contains s) then 0 else 1)
      + countDays holidays exclude_weekends exclude_holidays (s + 1) n

/-- Shallow embedding of `LeaveCalculationService.calculate_leave_duration`
(`leaves/services.py` lines 18-52).  Returns the integer count of days in
the inclusive range that are not skipped; returns 0 when start is after
end.  The holiday set is only consulted when `exclude_holidays`. -/
def calculate_leave_duration (hols : List HolidayCalendar) (start_date end_date : Int)
    (exclude_weekends exclude_holidays : Bool) : Nat :=
  if start_date > end_date then 0
  else
    let holidays := if exclude_holidays then holidaysInRange hols start_date end_date else []
    countDays holidays exclude_weekends exclude_holidays start_date (end_date - start_date + 1).toNat

/-- Day loop of `LeaveRequest.calculate_duration` (`leaves/models.py`
lines 232-249): weekends are skipped, holidays are NOT consulted, and a
counted day adds 0.5 when the leave type is half-day, else 1. -/
def modelCountDays (is_half_day : Bool) (s : Int) : Nat → Rat
  | 0 => 0
  | n + 1 =>
    (if isWeekendDay s then 0 else if is_half_day then (1 : Rat) / 2 else 1)
      + modelCountDays is_half_day (s + 1) n

/-- Shallow embedding of `LeaveRequest.calculate_duration`
(`leaves/models.py` lines 232-249), the duration stored on a saved
request when `duration_days` is unset. -/
def LeaveRequest.calculate_duration (lt : LeaveType) (start_date end_date : Int) : Rat :=
  modelCountDays lt.is_half_day start_date (end_date - start_date + 1).toNat

/-- Duration as the spec sentence behind claim C1 words it: each day of
the inclusive range that is neither an excluded weekend day nor an
excluded active holiday adds 0.5 when the leave type is half-day, else
1.0.  Written from the spec, for comparison with the two source
implementations. -/
def specDurationCount (hols : List HolidayCalendar) (lt : LeaveType)
    (exclude_weekends exclude_holidays : Bool) (s : Int) : Nat → Rat
  | 0 => 0
  | n + 1 =>
    (if (exclude_weekends && isWeekendDay s) || (exclude_holidays && isActiveHoliday hols s) then 0
     else if lt.is_half_day then (1 : Rat) / 2 else 1)
      + specDurationCount hols lt exclude_weekends exclude_holidays (s + 1) n

/-- Spec-worded duration over an inclusive range (claim C1's formula). -/
def specDuration (hols : List HolidayCalendar) (lt : LeaveType) (start_date end_date : Int)
    (exclude_weekends exclude_holidays : Bool) : Rat :=
  if start_date > end_date then 0
  else specDurationCount hols lt exclude_weekends exclude_holidays start_date
    (end_date - start_date + 1).toNat

/-- Database state: one list per table used by the leave services. -/
structure DB where
  holidays : List HolidayCalendar
  leave_types : List LeaveType
  departments : List Department
  entitlements : List EmployeeEntitlement
  requests : List LeaveRequest
  balances : List LeaveBalance
  history : List LeaveStatusHistory
deriving DecidableEq, Repr

/-- Lookup of a leave request by primary key. -/
def findRequest (reqs : List LeaveRequest) (rid : Nat) : Option LeaveRequest :=
  reqs.find? fun r => decide (r.id = rid)

/-- Saving a modified leave request: replace the row with the same primary key. -/
def setRequest (reqs : List LeaveRequest) (r' : LeaveRequest) : List LeaveRequest :=
  reqs.map fun r => if r.id = r'.id then r' else r

/-- Lookup of `EmployeeEntitlement.objects.get(employee=..., year=...)`. -/
def findEntitlement (ents : List EmployeeEntitlement) (employee : Nat) (year : Int) :
    Option EmployeeEntitlement :=
  ents.find? fun ent => decide (ent.employee = employee ∧ ent.year = year)

/-- Queryset `LeaveRequest.objects.filter(employee=..., start_date__year=...)`. -/
def requestsForYear (reqs : List LeaveRequest) (employee : Nat) (year : Int) : List LeaveRequest :=
  reqs.filter fun r => decide (r.employee = employee ∧ yearOf r.start_date = year)

/-- Aggregate `filter(status=st).aggregate(Sum(duration_days)) or 0`. -/
def sumByStatus (reqs : List LeaveRequest) (st : Status) : Rat :=
  ((reqs.filter fun r => decide (r.status = st)).map fun r => r.duration_days).sum

/-- Aggregate used by `update_leave_balance`: sum of durations for one
(employee, leave_type, start-year, status) key. -/
def sumDurations (reqs : List LeaveRequest) (employee leave_type : Nat) (year : Int)
    (st : Status) : Rat :=
  ((reqs.filter fun r =>
      decide (r.employee = employee ∧ r.leave_type = leave_type ∧
        yearOf r.start_date = year ∧ r.status = st)).map fun r => r.duration_days).sum

/-- Derived property `EmployeeEntitlement.total_available_days`. -/
def EmployeeEntitlement.total_available_days (ent : EmployeeEntitlement) : Rat :=
  ent.annual_holiday_entitlement + ent.days_carried_over + ent.time_in_lieu

/-- Derived property `EmployeeEntitlement.days_taken`: sum of APPROVED
request durations of the employee starting in the entitlement's year. -/
def days_taken (reqs : List LeaveRequest) (employee : Nat) (year : Int) : Rat :=
  sumByStatus (requestsForYear reqs employee year) .APPROVED

/-- Derived property `EmployeeEntitlement.remaining_entitlement`. -/
def remaining_entitlement (reqs : List LeaveRequest) (ent : EmployeeEntitlement) : Rat :=
  ent.total_available_days - days_taken reqs ent.employee ent.year

/-- Derived property `EmployeeEntitlement.utilization_rate`. -/
def utilizationRate (reqs : List LeaveRequest) (ent : EmployeeEntitlement) : Rat :=
  if ent.total_available_days > 0 then
    days_taken reqs ent.employee ent.year / ent.total_available_days * 100
  else 0

/-- Shallow embedding of
`EmployeeEntitlement.calculate_unused_days_from_previous_year`
(`leaves/models.py` lines 108-127). -/
def calculate_unused_days_from_previous_year (db : DB) (ent : EmployeeEntitlement) : Rat :=
  match findEntitlement db.entitlements ent.employee (ent.year - 1) with
  | some prev =>
      max 0 (prev.annual_holiday_entitlement - days_taken db.requests prev.employee prev.year)
  | none => 0

/-- Shallow embedding of `EmployeeEntitlement.auto_calculate_carried_over_days`
(`leaves/models.py` lines 129-146); returns the updated row and the value. -/
def auto_calculate_carried_over_days (db : DB) (ent : EmployeeEntitlement)
    (max_carry_over : Option Rat) : EmployeeEntitlement × Rat :=
  let unused := calculate_unused_days_from_previous_year db ent
  let unused :=
    match max_carry_over with
    | some m => min unused m
    | none => unused
  ({ ent with days_carried_over := unused }, unused)

/-- Shallow embedding of `EmployeeEntitlement.save` for a NEW row
(`leaves/models.py` lines 73-84): when `days_carried_over` is 0 the
carry-over from the previous year is auto-calculated and set if positive. -/
def entitlementSaveNew (db : DB) (ent : EmployeeEntitlement) : EmployeeEntitlement :=
  if ent.days_carried_over = 0 then
    let c := calculate_unused_days_from_previous_year db ent
    if c > 0 then { ent with days_carried_over := c } else ent
  else ent

/-- Fresh primary key for a created department. -/
def freshDepartmentId (deps : List Department) : Nat :=
  (deps.map fun d => d.id).foldr max 0 + 1

/-- Per-leave-type bucket in the employee summary. -/
structure LeaveTypeSummary where
  code : String
  approved : Rat
  pending : Rat
  total : Rat
deriving DecidableEq, Repr

/-- Return value of `LeaveCalculationService.get_employee_leave_summary`. -/
structure LeaveSummary where
  entitlement : EmployeeEntitlement
  total_available : Rat
  approved_days : Rat
  pending_days : Rat
  remaining_days : Rat
  utilization_rate : Rat
  leave_by_type : List LeaveTypeSummary
deriving DecidableEq, Repr

/-- Shallow embedding of `LeaveCalculationService.get_employee_leave_summary`
(`leaves/services.py` lines 54-121).  The entitlement is fetched, or
lazily created with the model defaults (annual 25, carried over 0 then
auto-calculated on save, time in lieu 0) tied to the first department
(creating a "Default Department" if none exists).  Returns the summary
and the possibly-updated database. -/
def get_employee_leave_summary (db : DB) (employee : Nat) (year : Int) : LeaveSummary × DB :=
  let entdb : EmployeeEntitlement × DB :=
    match findEntitlement db.entitlements employee year with
    | some ent => (ent, db)
    | none =>
        let depdb : Department × DB :=
          match db.departments.head? with
          | some d => (d, db)
          | none =>
              let d : Department :=
                ⟨freshDepartmentId db.departments, "Default Department",
                  "Default department for employees", true⟩
              (d, { db with departments := db.departments ++ [d] })
        let ent0 : EmployeeEntitlement :=
          { employee := employee, department := depdb.1.id, year := year,
            annual_holiday_entitlement := 25, days_carried_over := 0, time_in_lieu := 0 }
        let ent := entitlementSaveNew depdb.2 ent0
        (ent, { depdb.2 with entitlements := depdb.2.entitlements ++ [ent] })
  let ent := entdb.1
  let yearReqs := requestsForYear db.requests employee year
  let approved := sumByStatus yearReqs .APPROVED
  let pending := sumByStatus yearReqs .PENDING
  let by_type := (db.leave_types.filter fun lt => lt.is_active).map fun lt =>
    let ta := sumByStatus (yearReqs.filter fun r => decide (r.leave_type = lt.id)) .APPROVED
    let tp := sumByStatus (yearReqs.filter fun r => decide (r.leave_type = lt.id)) .PENDING
    ⟨lt.code, ta, tp, ta + tp⟩
  ({ entitlement := ent,
     total_available := ent.total_available_days,
     approved_days := approved,
     pending_days := pending,
     remaining_days := ent.total_available_days - approved - pending,
     utilization_rate := utilizationRate db.requests ent,
     leave_by_type := by_type }, entdb.2)

/-- Structured rendering of the error messages built by
`check_leave_eligibility`. -/
inductive LeaveError where
  | startAfterEnd
  | overlap
  | insufficientBalance (requested available : Rat)
deriving DecidableEq, Repr

/-- Structured rendering of the warning messages built by
`check_leave_eligibility`. -/
inductive LeaveWarning where
  | pastOrCurrentDate
deriving DecidableEq, Repr

/-- Return value of `LeaveCalculationService.check_leave_eligibility`. -/
structure EligibilityResult where
  eligible : Bool
  errors : List LeaveError
  warnings : List LeaveWarning
  calculated_duration : Rat
deriving DecidableEq, Repr

/-- Overlap queryset of `check_leave_eligibility` (`leaves/services.py`
lines 144-153): a PENDING or APPROVED request of the employee with
`start_date <= end_date` and `end_date >= start_date` of the proposal. -/
def overlapExists (reqs : List LeaveRequest) (employee : Nat) (start_date end_date : Int) : Bool :=
  reqs.any fun r =>
    decide (r.employee = employee ∧ (r.status = .PENDING ∨ r.status = .APPROVED) ∧
      r.start_date ≤ end_date ∧ r.end_date ≥ start_date)

/-- Shallow embedding of `LeaveCalculationService.check_leave_eligibility`
(`leaves/services.py` lines 123-172).  `today` stands for
`timezone.now().date()`.  Returns the result and the possibly-updated
database (the summary step may lazily create rows). -/
def check_leave_eligibility (db : DB) (today : Int) (employee : Nat) (lt : LeaveType)
    (start_date end_date : Int) (duration_days : Option Rat) : EligibilityResult × DB :=
  let duration : Rat :=
    match duration_days with
    | some d => d
    | none => (calculate_leave_duration db.holidays start_date end_date true true : Nat)
  let errors1 : List LeaveError := if start_date > end_date then [.startAfterEnd] else []
  let warnings : List LeaveWarning := if start_date ≤ today then [.pastOrCurrentDate] else []
  let errors2 := errors1 ++
    (if overlapExists db.requests employee start_date end_date then [.overlap] else [])
  let errdb : List LeaveError × DB :=
    if lt.affects_entitlement then
      let sumdb := get_employee_leave_summary db employee (yearOf start_date)
      (errors2 ++
        (if duration > sumdb.1.remaining_days then
          [.insufficientBalance duration sumdb.1.remaining_days] else []), sumdb.2)
    else (errors2, db)
  (⟨errdb.1.isEmpty, errdb.1, warnings, duration⟩, errdb.2)

/-- Key comparison for `LeaveBalance.objects.get_or_create(employee=...,
leave_type=..., year=...)`. -/
def balanceKeyMatches (b : LeaveBalance) (employee leave_type : Nat) (year : Int) : Bool :=
  decide (b.employee = employee ∧ b.leave_type = leave_type ∧ b.year = year)

/-- Lookup of the balance row for a key. -/
def findBalance (bals : List LeaveBalance) (employee leave_type : Nat) (year : Int) :
    Option LeaveBalance :=
  bals.find? fun b => balanceKeyMatches b employee leave_type year

/-- Effect of `get_or_create` followed by setting used/pending and saving:
the first row with the key gets the new used/pending values (keeping its
allocated days); if none exists a row with allocated 0 is appended. -/
def upsertBalance (employee leave_type : Nat) (year : Int) (used pending : Rat) :
    List LeaveBalance → List LeaveBalance
  | [] => [⟨employee, leave_type, year, 0, used, pending⟩]
  | b :: bs =>
      if balanceKeyMatches b employee leave_type year then
        { b with used_days := used, pending_days := pending } :: bs
      else b :: upsertBalance employee leave_type year used pending bs

/-- Shallow embedding of `LeaveCalculationService.update_leave_balance`
(`leaves/services.py` lines 261-293). -/
def update_leave_balance (db : DB) (employee leave_type : Nat) (year : Int) : DB :=
  let used := sumDurations db.requests employee leave_type year .APPROVED
  let pending := sumDurations db.requests employee leave_type year .PENDING
  { db with balances := upsertBalance employee leave_type year used pending db.balances }

/-- Shallow embedding of `LeaveCalculationService.approve_leave_request`
(`leaves/services.py` lines 174-203): history row first, then the status
update (unconditionally, whatever the current status), then the balance
recomputation for the request's start year.  `now` stands for
`timezone.now()`. -/
def approve_leave_request (db : DB) (rid approved_by : Nat) (reason : String) (now : Int) : DB :=
  match findRequest db.requests rid with
  | none => db
  | some r =>
      let hist : LeaveStatusHistory := ⟨rid, some r.status, .APPROVED, approved_by, reason⟩
      let r' := { r with status := .APPROVED, approved_by := some approved_by,
                         approved_at := some now }
      let db1 := { db with history := db.history ++ [hist],
                           requests := setRequest db.requests r' }
      update_leave_balance db1 r.employee r.leave_type (yearOf r.start_date)

/-- Shallow embedding of `LeaveCalculationService.reject_leave_request`
(`leaves/services.py` lines 205-226): history row, then the status update
(unconditionally).  No balance recomputation happens here. -/
def reject_leave_request (db : DB) (rid rejected_by : Nat) (reason : String) : DB :=
  match findRequest db.requests rid with
  | none => db
  | some r =>
      let hist : LeaveStatusHistory := ⟨rid, some r.status, .REJECTED, rejected_by, reason⟩
      let r' := { r with status := .REJECTED, rejection_reason := reason }
      { db with history := db.history ++ [hist],
                requests := setRequest db.requests r' }

/-- Property `LeaveRequest.can_be_cancelled` (`leaves/models.py` lines
227-230): PENDING, or APPROVED and strictly in the future. -/
def can_be_cancelled (today : Int) (r : LeaveRequest) : Bool :=
  decide (r.status = .PENDING) ||
    (decide (r.status = .APPROVED) && decide (today < r.start_date))

/-- Shallow embedding of `LeaveCalculationService.cancel_leave_request`
(`leaves/services.py` lines 228-259).  Raising `ValueError` becomes
`none`.  The post-save condition `status in ['APPROVED', 'CANCELLED']`
is kept literally (the status was just set to CANCELLED, so it always
holds and the balance is always recomputed). -/
def cancel_leave_request (db : DB) (today : Int) (rid cancelled_by : Nat) (reason : String) :
    Option DB :=
  match findRequest db.requests rid with
  | none => none
  | some r =>
      if can_be_cancelled today r then
        let hist : LeaveStatusHistory := ⟨rid, some r.status, .CANCELLED, cancelled_by, reason⟩
        let r' := { r with status := .CANCELLED }
        let db1 := { db with history := db.history ++ [hist],
                             requests := setRequest db.requests r' }
        some (if decide (r'.status = .APPROVED) || decide (r'.status = .CANCELLED) then
          update_leave_balance db1 r.employee r.leave_type (yearOf r.start_date)
        else db1)
      else none

/-- Execution of `approve_leave_request` with a fault injected at the
request-status save.  `leaves/services.py` uses no enclosing transaction
and Django autocommit commits each ORM write on its own, so the
`LeaveStatusHistory.objects.create` at the top has already committed when
`leave_request.save()` raises; the exception then propagates, leaving the
history row in place and the request untouched. -/
def approve_leave_request_fault (db : DB) (rid approved_by : Nat) (reason : String) (now : Int)
    (status_save_fails : Bool) : DB :=
  match findRequest db.requests rid with
  | none => db
  | some r =>
      let hist : LeaveStatusHistory := ⟨rid, some r.status, .APPROVED, approved_by, reason⟩
      let db1 := { db with history := db.history ++ [hist] }
      if status_save_fails then db1
      else
        let r' := { r with status := .APPROVED, approved_by := some approved_by,
                           approved_at := some now }
        let db2 := { db1 with requests := setRequest db1.requests r' }
        update_leave_balance db2 r.employee r.leave_type (yearOf r.start_date)

/-- Per-employee line of the carry-over report. -/
structure CarryOverEntry where
  employee : Nat
  unused_days : Rat
  carried_over_days : Rat
  capped : Bool
deriving DecidableEq, Repr

/-- Report of the year-end carry-over batch. -/
structure CarryOverReport where
  refused : Bool
  processed_employees : Nat
  employees_with_carry_over : List CarryOverEntry
  total_days_carried_over : Rat
deriving DecidableEq, Repr

/-- Writing `days_carried_over` of the (employee, year) entitlement: the
first row with the key is updated; if none exists a row with the model
defaults (annual 25, time in lieu 0, department 0 — the spec does not fix
the department of a created row) is appended. -/
def upsertEntitlementCarryOver (employee : Nat) (year : Int) (carried : Rat) :
    List EmployeeEntitlement → List EmployeeEntitlement
  | [] => [⟨employee, 0, year, 25, carried, 0⟩]
  | ent :: ents =>
      if decide (ent.employee = employee ∧ ent.year = year) then
        { ent with days_carried_over := carried } :: ents
      else ent :: upsertEntitlementCarryOver employee year carried ents

/-- One step of the carry-over batch for a previous-year entitlement:
compute the figures and, unless this is a dry run, persist the new
year's `days_carried_over`.  Requests are never written by the batch, so
`days_taken` is read from the request table as it stood at the start. -/
def processCarryOverStep (requests : List LeaveRequest) (year : Int)
    (max_carry_over : Option Rat) (dry_run : Bool) :
    List EmployeeEntitlement × List CarryOverEntry → EmployeeEntitlement →
    List EmployeeEntitlement × List CarryOverEntry
  | (ents, entries), prev =>
      let unused := max 0 (prev.annual_holiday_entitlement -
        days_taken requests prev.employee prev.year)
      let carried :=
        match max_carry_over with
        | some m => min unused m
        | none => unused
      let capped :=
        match max_carry_over with
        | some m => decide (unused > m)
        | none => false
      let ents' := if dry_run then ents else upsertEntitlementCarryOver prev.employee year carried ents
      (ents', entries ++ (if carried > 0 then [⟨prev.employee, unused, carried, capped⟩] else []))

/-- Modelled from the spec: `LeaveReportService.process_year_end_carry_over`
is invoked by the management command `process_year_end_carry_over`
(`leaves/management/commands/process_year_end_carry_over.py` line 67) but
its definition is absent from the source tree.  Following spec section
4.5 and the command: unless forced, a non-dry-run invocation refuses to
run when an entitlement of the target year already has positive
`days_carried_over` (the command skips this guard for dry runs); for
every previous-year entitlement, `unused_days = max(0,
annual_holiday_entitlement - days_taken)`, capped by
`max_carry_over_days` when supplied; a non-dry-run persists the target
year's `days_carried_over`, a dry run computes and reports only. -/
def process_year_end_carry_over (db : DB) (year : Int) (max_carry_over : Option Rat)
    (dry_run force : Bool) : CarryOverReport × DB :=
  if ¬force ∧ ¬dry_run ∧
      (db.entitlements.any fun ent => decide (ent.year = year ∧ ent.days_carried_over > 0)) then
    (⟨true, 0, [], 0⟩, db)
  else
    let prevs := db.entitlements.filter fun ent => decide (ent.year = year - 1)
    let res := prevs.foldl (processCarryOverStep db.requests year max_carry_over dry_run)
      (db.entitlements, [])
    (⟨false, prevs.length, res.2, (res.2.map fun entry => entry.carried_over_days).sum⟩,
      { db with entitlements := res.1 })

/-- Empty database. -/
def emptyDB : DB := ⟨[], [], [], [], [], [], []⟩

/-- Full-day leave type used in concrete instances. -/
def ltFull : LeaveType := ⟨1, "AL", true, true, false, true, true⟩

/-- Half-day leave type used in concrete instances. -/
def ltHalf : LeaveType := ⟨2, "AL.5", true, true, true, true, true⟩

/-- Day-level counting predicate of the service duration: a day is
counted when it is neither an excluded weekend day nor an excluded
active holiday. -/
def countedDay (hols : List HolidayCalendar) (exclude_weekends exclude_holidays : Bool)
    (d : Int) : Bool :=
  !((exclude_weekends && isWeekendDay d) || (exclude_holidays && isActiveHoliday hols d))

/-- Inclusive list of days from start to end. -/
def daysList (start_date end_date : Int) : List Int :=
  (List.range (end_date - start_date + 1).toNat).map fun i : Nat => start_date + (i : Int)

/-- Check that the balance row of a key carries exactly the APPROVED and
PENDING duration aggregates of the request table (claim C3's invariant). -/
def balanceMatchesAggregates (db : DB) (employee leave_type : Nat) (year : Int) : Bool :=
  match findBalance db.balances employee leave_type year with
  | some b =>
      decide (b.used_days = sumDurations db.requests employee leave_type year .APPROVED
        ∧ b.pending_days = sumDurations db.requests employee leave_type year .PENDING)
  | none => false

/-- Pending five-day leave request of employee 1 starting on day 40
(year 1). -/
def reqPending : LeaveRequest := ⟨1, 1, 1, 40, 44, 5, "holiday", .PENDING, none, none, "", 1⟩

/-- Database with one pending request and a balance row consistent with
the aggregates. -/
def dbPending : DB := ⟨[], [ltFull], [], [], [reqPending], [⟨1, 1, 1, 0, 0, 5⟩], []⟩

/-- Approved five-day leave request of employee 1 starting on day 40
(year 1). -/
def reqApproved : LeaveRequest := ⟨1, 1, 1, 40, 44, 5, "holiday", .APPROVED, some 2, some 10, "", 1⟩

/-- Database with one approved (terminal-state) request. -/
def dbApproved : DB := ⟨[], [ltFull], [], [], [reqApproved], [⟨1, 1, 1, 0, 5, 0⟩], []⟩

/-- Database for the carry-over counterexample: employee 1 has a year-1
entitlement with 10 unused days, and employee 2 already has positive
carried-over days in the target year 2. -/
def dbCarryGuard : DB := ⟨[], [], [], [⟨1, 0, 1, 10, 0, 0⟩, ⟨2, 0, 2, 25, 3, 0⟩], [], [], []⟩

/-- Year-1 entitlement of employee 3 with 33 annual days. -/
def entPrev : EmployeeEntitlement := ⟨3, 0, 1, 33, 0, 0⟩

/-- Year-2 entitlement row of employee 3 (used as `self` for the
carry-over computation). -/
def entNext : EmployeeEntitlement := ⟨3, 0, 2, 25, 0, 0⟩

/-- Database where employee 3 took 25 approved days in year 1, leaving
8 unused days of the 33-day entitlement. -/
def dbCarryEight : DB :=
  ⟨[], [ltFull], [], [entPrev], [⟨2, 3, 1, 40, 74, 25, "long", .APPROVED, some 9, some 10, "", 3⟩],
    [], []⟩

/-- Year-1 entitlement of employee 1 with 25 annual days. -/
def entYearOne : EmployeeEntitlement := ⟨1, 0, 1, 25, 0, 0⟩

/-- Approved request of employee 1 starting on the last day of year 1
(Rata Die 365) and ending on the first day of year 2 (Rata Die 366). -/
def reqCross : LeaveRequest := ⟨1, 1, 1, 365, 366, 5, "newyear", .APPROVED, some 9, some 10, "", 1⟩

/-- Database with the year-crossing request and only the year-1
entitlement (the year-2 entitlement will be created lazily). -/
def dbCross : DB := ⟨[], [ltFull], [], [entYearOne], [reqCross], [], []⟩

/-- Same database without the year-crossing request. -/
def dbCrossRemoved : DB := ⟨[], [ltFull], [], [entYearOne], [], [], []⟩

/-- Year-2 entitlement of employee 1 with 25 annual days. -/
def entYearTwo : EmployeeEntitlement := ⟨1, 0, 2, 25, 0, 0⟩

/-- Database with the year-crossing request and entitlements for both
years (no lazy creation needed). -/
def dbCrossBoth : DB := ⟨[], [ltFull], [], [entYearOne, entYearTwo], [reqCross], [], []⟩


theorem range_map_add_succ (s : Int) (n : Nat) :
    ((List.range (n + 1)).map fun i : Nat => s + (i : Int))
      = s :: ((List.range n).map fun i : Nat => (s + 1) + (i : Int)) := by
  rw [List.range_succ_eq_map, List.map_cons, List.map_map]
  refine congrArg₂ _ (by simp) (List.map_congr_left fun a _ => ?_)
  simp only [Function.comp_apply]
  push_cast
  ring

theorem countDays_eq_countP (H : List Int) (ew eh : Bool) (s : Int) (n : Nat) :
    countDays H ew eh s n
      = ((List.range n).map fun i : Nat => s + (i : Int)).countP
          fun d => !((ew && isWeekendDay d) || (eh && H.contains d)) := by
  induction n generalizing s with
  | zero => rfl
  | succ n ih =>
      rw [range_map_add_succ, List.countP_cons]
      show (if (ew && isWeekendDay s) || (eh && H.contains s) then 0 else 1)
          + countDays H ew eh (s + 1) n = _
      rw [ih (s + 1)]
      cases hc : (ew && isWeekendDay s || eh && H.contains s) <;> simp [hc, Nat.add_comm]

theorem holidaysInRange_contains (hols : List HolidayCalendar) (s e d : Int)
    (h1 : s ≤ d) (h2 : d ≤ e) :
    (holidaysInRange hols s e).contains d = isActiveHoliday hols d := by
  rw [Bool.eq_iff_iff]
  have hc : (holidaysInRange hols s e).contains d = (holidaysInRange hols s e).elem d := rfl
  rw [hc, List.elem_iff]
  constructor
  · intro hmem
    simp only [holidaysInRange, List.mem_map, List.mem_filter] at hmem
    obtain ⟨h, ⟨hm, hp⟩, hd⟩ := hmem
    simp only [Bool.and_eq_true, decide_eq_true_eq] at hp
    simp only [isActiveHoliday, List.any_eq_true, Bool.and_eq_true, decide_eq_true_eq]
    exact ⟨h, hm, hp.1.1, hd⟩
  · intro hact
    simp only [isActiveHoliday, List.any_eq_true, Bool.and_eq_true, decide_eq_true_eq] at hact
    obtain ⟨h, hm, hA, hd⟩ := hact
    simp only [holidaysInRange, List.mem_map, List.mem_filter]
    exact ⟨h, ⟨hm, by simp [hA, hd ▸ h1, hd ▸ h2]⟩, hd⟩

theorem mem_daysList {s e d : Int} (h : d ∈ daysList s e) : s ≤ d ∧ d ≤ e := by
  simp only [daysList, List.mem_map, List.mem_range] at h
  obtain ⟨i, hi, rfl⟩ := h
  omega

theorem calculate_leave_duration_eq_countP (hols : List HolidayCalendar) (s e : Int)
    (ew eh : Bool) :
    calculate_leave_duration hols s e ew eh = (daysList s e).countP (countedDay hols ew eh) := by
  unfold calculate_leave_duration
  by_cases hse : s > e
  · have h0 : (e - s + 1).toNat = 0 := by omega
    simp [hse, daysList, h0]
  · rw [if_neg hse]
    show countDays (if eh then holidaysInRange hols s e else []) ew eh s (e - s + 1).toNat = _
    rw [countDays_eq_countP]
    apply List.countP_congr
    intro d hd
    have hrange : s ≤ d ∧ d ≤ e := mem_daysList (by simpa [daysList] using hd)
    cases eh with
    | false => simp [countedDay]
    | true =>
        have hh := holidaysInRange_contains hols s e d hrange.1 hrange.2
        have hmem : d ∈ holidaysInRange hols s e ↔ isActiveHoliday hols d = true := by
          rw [← List.elem_iff]
          exact Bool.eq_iff_iff.mp hh
        simp [countedDay, hmem]

set_option linter.unusedTactic false in
theorem modelCountDays_eq (half : Bool) (s : Int) (n : Nat) :
    modelCountDays half s n
      = (if half then (1 : Rat) / 2 else 1)
          * (((List.range n).map fun i : Nat => s + (i : Int)).countP fun d => !isWeekendDay d) := by
  induction n generalizing s with
  | zero => simp [modelCountDays]
  | succ n ih =>
      rw [range_map_add_succ, List.countP_cons]
      show (if isWeekendDay s then 0 else if half then (1 : Rat) / 2 else 1)
          + modelCountDays half (s + 1) n = _
      rw [ih (s + 1)]
      cases hw : isWeekendDay s <;> cases hh : half <;>
        simp [hw, hh] <;> push_cast <;> ring

theorem model_calculate_duration_eq (lt : LeaveType) (s e : Int) :
    LeaveRequest.calculate_duration lt s e
      = (if lt.is_half_day then (1 : Rat) / 2 else 1)
          * ((daysList s e).countP fun d => !isWeekendDay d) := by
  unfold LeaveRequest.calculate_duration daysList
  exact modelCountDays_eq lt.is_half_day s (e - s + 1).toNat

theorem daysList_split {s e e' : Int} (h1 : s ≤ e) (h2 : e ≤ e') :
    daysList s e' = daysList s e ++
      ((List.range (e' - e).toNat).map fun i : Nat => (e + 1) + (i : Int)) := by
  unfold daysList
  have hn : (e' - s + 1).toNat = (e - s + 1).toNat + (e' - e).toNat := by omega
  rw [hn, List.range_add, List.map_append, List.map_map]
  refine congrArg _ (List.map_congr_left fun a _ => ?_)
  simp only [Function.comp_apply]
  have : ((e - s + 1).toNat : Int) = e - s + 1 := by omega
  push_cast [this]
  ring

/-- C1 (corrected): the eligibility-path duration
(`LeaveCalculationService.calculate_leave_duration`) counts every day of
the inclusive range that is neither an excluded Saturday/Sunday nor an
excluded active holiday, adding exactly 1 per counted day — the leave
type's half-day flag never enters; the duration stored on a saved
request (`LeaveRequest.calculate_duration`) skips Saturdays/Sundays only
— holidays are never consulted — and weights each counted day by 0.5
when the leave type is half-day, else 1. -/
theorem c1_duration_characterisation (hols : List HolidayCalendar) (lt : LeaveType)
    (s e : Int) (ew eh : Bool) :
    calculate_leave_duration hols s e ew eh = (daysList s e).countP (countedDay hols ew eh)
    ∧ LeaveRequest.calculate_duration lt s e
        = (if lt.is_half_day then (1 : Rat) / 2 else 1)
            * ((daysList s e).countP fun d => !isWeekendDay d) :=
  ⟨calculate_leave_duration_eq_countP hols s e ew eh, model_calculate_duration_eq lt s e⟩

/-- C1 counterexample: on the single Monday day 1 with no holidays and a
half-day leave type, the service duration is 1 while the spec formula
gives 0.5; on the single Tuesday day 2, which is an active holiday, the
stored model duration is 1 while the spec formula gives 0. -/
theorem c1_counterexample :
    ¬ (((calculate_leave_duration [] 1 1 true true : Nat) : Rat)
          = specDuration [] ltHalf 1 1 true true
        ∧ LeaveRequest.calculate_duration ltFull 2 2
          = specDuration [⟨"holiday", 2, false, true⟩] ltFull 2 2 true true) := by
  intro h
  exact absurd h.1 (by decide)

/-- C9: `calculate_leave_duration` returns 0 whenever the end date lies
before the start date, and with the start date fixed it is monotonically
non-decreasing in the end date. -/
theorem c9_zero_and_monotone (hols : List HolidayCalendar) (s e e' : Int) (ew eh : Bool) :
    (e < s → calculate_leave_duration hols s e ew eh = 0)
    ∧ (e ≤ e' → calculate_leave_duration hols s e ew eh
        ≤ calculate_leave_duration hols s e' ew eh) := by
  constructor
  · intro h
    simp [calculate_leave_duration, h]
  · intro h
    by_cases hse : s ≤ e
    · rw [calculate_leave_duration_eq_countP, calculate_leave_duration_eq_countP,
        daysList_split hse h, List.countP_append]
      exact Nat.le_add_right _ _
    · have hgt : s > e := by omega
      have h0 : calculate_leave_duration hols s e ew eh = 0 := by
        simp [calculate_leave_duration, hgt]
      rw [h0]
      exact Nat.zero_le _

/-- C9 witness: concrete instances of both parts. -/
theorem c9_witness :
    ((1 : Int) < 3 ∧ calculate_leave_duration [⟨"h", 4, false, true⟩] 3 1 true true = 0)
    ∧ ((1 : Int) ≤ 8 ∧ calculate_leave_duration [⟨"h", 4, false, true⟩] 3 1 true true
        ≤ calculate_leave_duration [⟨"h", 4, false, true⟩] 3 8 true true) :=
  ⟨⟨by decide, (c9_zero_and_monotone [⟨"h", 4, false, true⟩] 3 1 8 true true).1 (by decide)⟩,
   ⟨by decide, (c9_zero_and_monotone [⟨"h", 4, false, true⟩] 3 1 8 true true).2 (by decide)⟩⟩

theorem findRequest_setRequest (reqs : List LeaveRequest) (rid : Nat) (r r' : LeaveRequest)
    (h : findRequest reqs rid = some r) (hid : r'.id = r.id) :
    findRequest (setRequest reqs r') rid = some r' := by
  have hr : r.id = rid := by simpa using List.find?_some h
  have hr' : r'.id = rid := by rw [hid, hr]
  unfold findRequest setRequest at *
  induction reqs with
  | nil => simp at h
  | cons u us ih =>
      rw [List.map_cons]
      by_cases hu : u.id = rid
      · rw [List.find?_cons_of_pos _ (by simpa using hu)] at h
        rw [if_pos (hu.trans hr'.symm)]
        exact List.find?_cons_of_pos _ (by simpa using hr')
      · rw [List.find?_cons_of_neg _ (by simpa using hu)] at h
        rw [if_neg fun hc => hu (hc.trans hr')]
        rw [List.find?_cons_of_neg _ (by simpa using hu)]
        exact ih h

/-- C2 (corrected): the core `approve_leave_request` and
`reject_leave_request` perform no status precondition whatsoever — they
unconditionally write the history row recording the old status and set
the request's status to APPROVED (with approver and approval time)
respectively REJECTED (with the rejection reason), whatever the current
status, including terminal ones.  The PENDING guard exists only in the
calling web view (`approve_leave_ajax` in `leaves/views.py`). -/
theorem c2_no_status_guard (db : DB) (rid actor : Nat) (reason : String) (now : Int)
    (r : LeaveRequest) (h : findRequest db.requests rid = some r) :
    findRequest (approve_leave_request db rid actor reason now).requests rid
        = some { r with status := .APPROVED, approved_by := some actor, approved_at := some now }
    ∧ (approve_leave_request db rid actor reason now).history
        = db.history ++ [⟨rid, some r.status, .APPROVED, actor, reason⟩]
    ∧ findRequest (reject_leave_request db rid actor reason).requests rid
        = some { r with status := .REJECTED, rejection_reason := reason }
    ∧ (reject_leave_request db rid actor reason).history
        = db.history ++ [⟨rid, some r.status, .REJECTED, actor, reason⟩] := by
  refine ⟨?_, ?_, ?_, ?_⟩
  · simp only [approve_leave_request, h, update_leave_balance]
    exact findRequest_setRequest db.requests rid r _ h rfl
  · simp only [approve_leave_request, h, update_leave_balance]
  · simp only [reject_leave_request, h]
    exact findRequest_setRequest db.requests rid r _ h rfl
  · simp only [reject_leave_request, h]

/-- C2 counterexample: rejecting a request that is already in the
terminal state APPROVED succeeds and moves it to REJECTED — the claimed
refusal to transition out of a terminal state does not happen. -/
theorem c2_counterexample :
    (findRequest dbApproved.requests 1).map (fun r => r.status) = some .APPROVED
    ∧ (findRequest (reject_leave_request dbApproved 1 9 "no").requests 1).map (fun r => r.status)
        = some .REJECTED := by
  decide

/-- C2 witness: the amended claim applied to the approved-request
database. -/
theorem c2_witness :
    findRequest (approve_leave_request dbApproved 1 5 "ok" 100).requests 1
        = some { reqApproved with status := .APPROVED, approved_by := some 5,
                                  approved_at := some 100 }
    ∧ (approve_leave_request dbApproved 1 5 "ok" 100).history
        = dbApproved.history ++ [⟨1, some reqApproved.status, .APPROVED, 5, "ok"⟩]
    ∧ findRequest (reject_leave_request dbApproved 1 5 "ok").requests 1
        = some { reqApproved with status := .REJECTED, rejection_reason := "ok" }
    ∧ (reject_leave_request dbApproved 1 5 "ok").history
        = dbApproved.history ++ [⟨1, some reqApproved.status, .REJECTED, 5, "ok"⟩] :=
  c2_no_status_guard dbApproved 1 5 "ok" 100 reqApproved (by decide)

theorem findBalance_upsertBalance (bals : List LeaveBalance) (e t : Nat) (y : Int)
    (used pending : Rat) :
    ∃ b, findBalance (upsertBalance e t y used pending bals) e t y = some b
      ∧ b.used_days = used ∧ b.pending_days = pending := by
  induction bals with
  | nil =>
      refine ⟨⟨e, t, y, 0, used, pending⟩, ?_, rfl, rfl⟩
      simp [upsertBalance, findBalance, balanceKeyMatches]
  | cons b bs ih =>
      by_cases hb : balanceKeyMatches b e t y = true
      · refine ⟨{ b with used_days := used, pending_days := pending }, ?_, rfl, rfl⟩
        simp only [upsertBalance, if_pos hb, findBalance]
        exact List.find?_cons_of_pos _ (by simpa [balanceKeyMatches] using hb)
      · obtain ⟨b', hf, hu, hp⟩ := ih
        refine ⟨b', ?_, hu, hp⟩
        simp only [upsertBalance, if_neg hb, findBalance]
        have hstep : List.find? (fun bb => balanceKeyMatches bb e t y)
            (b :: upsertBalance e t y used pending bs)
            = List.find? (fun bb => balanceKeyMatches bb e t y)
              (upsertBalance e t y used pending bs) := List.find?_cons_of_neg _ hb
        exact hstep.trans hf

theorem balanceMatches_update (db : DB) (e t : Nat) (y : Int) :
    balanceMatchesAggregates (update_leave_balance db e t y) e t y = true := by
  obtain ⟨b, hf, hu, hp⟩ := findBalance_upsertBalance db.balances e t y
      (sumDurations db.requests e t y .APPROVED) (sumDurations db.requests e t y .PENDING)
  simp only [balanceMatchesAggregates, update_leave_balance]
  rw [hf]
  simp [hu, hp]

/-- C3 (corrected): after `approve_leave_request` and after a successful
`cancel_leave_request` the LeaveBalance row for the request's (employee,
leave_type, start-year) key holds exactly the APPROVED and PENDING
duration aggregates of the request table; `reject_leave_request` performs
no balance update at all, so the claim fails for rejections. -/
theorem c3_balance_after_approve_cancel (db : DB) (today : Int) (rid actor : Nat)
    (reason : String) (now : Int) (r : LeaveRequest) (db' : DB)
    (h1 : findRequest db.requests rid = some r)
    (h2 : cancel_leave_request db today rid actor reason = some db') :
    balanceMatchesAggregates (approve_leave_request db rid actor reason now)
        r.employee r.leave_type (yearOf r.start_date) = true
    ∧ balanceMatchesAggregates db' r.employee r.leave_type (yearOf r.start_date) = true := by
  constructor
  · simp only [approve_leave_request, h1]
    exact balanceMatches_update _ _ _ _
  · simp only [cancel_leave_request, h1] at h2
    by_cases hc : can_be_cancelled today r = true
    · rw [if_pos hc] at h2
      injection h2 with h2
      rw [← h2]
      have hcond : (decide (Status.CANCELLED = Status.APPROVED) || decide True) = true := by
        decide
      rw [if_pos hcond]
      exact balanceMatches_update _ _ _ _
    · rw [if_neg hc] at h2
      exact absurd h2 (by simp)

/-- C3 counterexample: a balance row consistent with the aggregates (one
pending 5-day request, pending_days 5) is left untouched by a rejection:
afterwards pending_days is still 5 while no PENDING request remains. -/
theorem c3_counterexample :
    balanceMatchesAggregates dbPending 1 1 1 = true
    ∧ balanceMatchesAggregates (reject_leave_request dbPending 1 9 "no") 1 1 1 = false := by
  decide

/-- C3 witness: the amended claim applied to the pending-request
database, for an approval and a cancellation. -/
theorem c3_witness :
    balanceMatchesAggregates (approve_leave_request dbPending 1 5 "ok" 100) 1 1 1 = true
    ∧ balanceMatchesAggregates ((cancel_leave_request dbPending 30 1 5 "x").getD emptyDB)
        1 1 1 = true := by
  have h := c3_balance_after_approve_cancel dbPending 30 1 5 "x" 100 reqPending
      ((cancel_leave_request dbPending 30 1 5 "x").getD emptyDB) (by decide) (by decide)
  exact ⟨h.1, h.2⟩

/-- C4 (code bug): with a fault injected at the request-status save, the
approve transition leaves the already-committed history row in place
while the request still has its old PENDING status.  `leaves/services.py`
wraps no transition in a transaction (no `transaction.atomic` anywhere in
the service layer), so the history insert and the status update commit
separately; the fault-free execution coincides with the plain embedding. -/
theorem c4_orphan_history_on_fault :
    (approve_leave_request_fault dbPending 1 2 "ok" 100 true).history
        = dbPending.history ++ [⟨1, some .PENDING, .APPROVED, 2, "ok"⟩]
    ∧ (findRequest (approve_leave_request_fault dbPending 1 2 "ok" 100 true).requests 1).map
        (fun r => r.status) = some .PENDING
    ∧ approve_leave_request_fault dbPending 1 2 "ok" 100 false
        = approve_leave_request dbPending 1 2 "ok" 100 := by
  decide

theorem carryOver_entries_independent (requests : List LeaveRequest) (year : Int)
    (cap : Option Rat) (d1 d2 : Bool) (prevs : List EmployeeEntitlement)
    (e1 e2 : List EmployeeEntitlement) (acc : List CarryOverEntry) :
    (prevs.foldl (processCarryOverStep requests year cap d1) (e1, acc)).2
      = (prevs.foldl (processCarryOverStep requests year cap d2) (e2, acc)).2 := by
  induction prevs generalizing e1 e2 acc with
  | nil => rfl
  | cons p ps ih =>
      simp only [List.foldl_cons, processCarryOverStep]
      exact ih _ _ _

theorem carryOver_dryrun_entitlements (requests : List LeaveRequest) (year : Int)
    (cap : Option Rat) (prevs : List EmployeeEntitlement) (ents : List EmployeeEntitlement)
    (acc : List CarryOverEntry) :
    (prevs.foldl (processCarryOverStep requests year cap true) (ents, acc)).1 = ents := by
  induction prevs generalizing ents acc with
  | nil => rfl
  | cons p ps ih =>
      simp only [List.foldl_cons, processCarryOverStep, if_true]
      exact ih _ _

/-- C5 (corrected, spec-modelled): provided the non-dry-run invocation is
not refused by the double-processing guard — i.e. force is set, or no
target-year entitlement already has positive carried-over days — a dry
run produces exactly the same report (per-employee unused, carried-over
and capped figures, counts and total) as the non-dry-run invocation, and
a dry run never changes the database. -/
theorem c5_dry_run_equivalence (db : DB) (year : Int) (cap : Option Rat) (force : Bool)
    (h : force = true ∨ (db.entitlements.any fun ent =>
        decide (ent.year = year ∧ ent.days_carried_over > 0)) = false) :
    (process_year_end_carry_over db year cap true force).2 = db
    ∧ (process_year_end_carry_over db year cap true force).1
        = (process_year_end_carry_over db year cap false force).1 := by
  constructor
  · simp only [process_year_end_carry_over]
    split
    · next hcond => exact absurd hcond (by simp)
    · rw [carryOver_dryrun_entitlements]
  · simp only [process_year_end_carry_over]
    split
    · next hcond => exact absurd hcond (by simp)
    · split
      · next hcond =>
          rcases h with hf | hany
          · exact absurd hf hcond.1
          · rw [hany] at hcond
            exact absurd hcond.2.2 (by simp)
      · rw [carryOver_entries_independent db.requests year cap true false _
          db.entitlements db.entitlements []]

/-- C5 counterexample: with force unset and an existing positive
carry-over row in the target year, the dry run still reports a
carry-over figure while the non-dry-run invocation refuses and reports
nothing, so the computed figures differ. -/
theorem c5_counterexample :
    (process_year_end_carry_over dbCarryGuard 2 none true false).1.employees_with_carry_over
        = [⟨1, 10, 10, false⟩]
    ∧ (process_year_end_carry_over dbCarryGuard 2 none false false).1.employees_with_carry_over
        = []
    ∧ (process_year_end_carry_over dbCarryGuard 2 none false false).1.refused = true := by
  decide

/-- C5 witness: the amended claim applied with force set. -/
theorem c5_witness :
    (process_year_end_carry_over dbCarryGuard 2 none true true).2 = dbCarryGuard
    ∧ (process_year_end_carry_over dbCarryGuard 2 none true true).1
        = (process_year_end_carry_over dbCarryGuard 2 none false true).1 :=
  c5_dry_run_equivalence dbCarryGuard 2 none true (Or.inl rfl)

/-- C6 counterexample: for an employee with no entitlement and no
requests at all, the lazily created entitlement has the model default of
25 annual days, so total_available and remaining_days are 25, not 0. -/
theorem c6_counterexample :
    (get_employee_leave_summary emptyDB 7 2).1.total_available = 25
    ∧ (get_employee_leave_summary emptyDB 7 2).1.remaining_days = 25
    ∧ (25 : Rat) ≠ 0 := by
  decide

theorem findEntitlement_none_forall {ents : List EmployeeEntitlement} {employee : Nat}
    {year : Int} (h : findEntitlement ents employee year = none) :
    ∀ x ∈ ents, x.employee = employee → ¬x.year = year := by
  intro x hx hxe hxy
  have hno := h
  simp only [findEntitlement] at hno
  rw [List.find?_eq_none] at hno
  exact absurd (by simp [hxe, hxy]) (hno x hx)

/-- C6 (corrected): when no entitlement exists for (employee, year), the
summary lazily creates one tied to a default department, but with the
model default of 25 annual holiday days (days_carried_over is
auto-calculated on save — 0 when the employee has no previous-year
entitlement — and time_in_lieu 0); consequently for such an employee
with no requests the summary's remaining_days is 25, not 0. -/
theorem c6_lazy_entitlement_default (db : DB) (employee : Nat) (year : Int)
    (h1 : findEntitlement db.entitlements employee year = none)
    (h2 : findEntitlement db.entitlements employee (year - 1) = none)
    (h3 : requestsForYear db.requests employee year = []) :
    (get_employee_leave_summary db employee year).1.entitlement.annual_holiday_entitlement = 25
    ∧ (get_employee_leave_summary db employee year).1.entitlement.days_carried_over = 0
    ∧ (get_employee_leave_summary db employee year).1.entitlement.time_in_lieu = 0
    ∧ (get_employee_leave_summary db employee year).1.total_available = 25
    ∧ (get_employee_leave_summary db employee year).1.remaining_days = 25
    ∧ findEntitlement (get_employee_leave_summary db employee year).2.entitlements employee year
        = some (get_employee_leave_summary db employee year).1.entitlement := by
  cases hd : db.departments.head? with
  | none =>
      simp only [get_employee_leave_summary, h1, hd, entitlementSaveNew,
        calculate_unused_days_from_previous_year, h2, h3]
      norm_num [EmployeeEntitlement.total_available_days, sumByStatus, findEntitlement,
        List.find?_append, h1, balanceKeyMatches]
      exact Or.inr (findEntitlement_none_forall h1)
  | some d =>
      simp only [get_employee_leave_summary, h1, hd, entitlementSaveNew,
        calculate_unused_days_from_previous_year, h2, h3]
      norm_num [EmployeeEntitlement.total_available_days, sumByStatus, findEntitlement,
        List.find?_append, h1, balanceKeyMatches]
      exact Or.inr (findEntitlement_none_forall h1)

/-- C6 witness: the amended claim applied to the empty database. -/
theorem c6_witness :
    (get_employee_leave_summary emptyDB 7 2).1.entitlement.annual_holiday_entitlement = 25
    ∧ (get_employee_leave_summary emptyDB 7 2).1.entitlement.days_carried_over = 0
    ∧ (get_employee_leave_summary emptyDB 7 2).1.entitlement.time_in_lieu = 0
    ∧ (get_employee_leave_summary emptyDB 7 2).1.total_available = 25
    ∧ (get_employee_leave_summary emptyDB 7 2).1.remaining_days = 25
    ∧ findEntitlement (get_employee_leave_summary emptyDB 7 2).2.entitlements 7 2
        = some (get_employee_leave_summary emptyDB 7 2).1.entitlement :=
  c6_lazy_entitlement_default emptyDB 7 2 rfl rfl rfl

/-- C7: the eligibility check reports an overlap error exactly when some
existing PENDING or APPROVED request of the same employee satisfies
`existing.start_date <= new.end_date` and `existing.end_date >=
new.start_date` (inclusive bounds on both ranges), and an overlap error
forces eligible = false. -/
theorem c7_overlap_iff (db : DB) (today : Int) (employee : Nat) (lt : LeaveType)
    (s e : Int) (dur : Option Rat) :
    (LeaveError.overlap ∈ (check_leave_eligibility db today employee lt s e dur).1.errors
      ↔ ∃ r ∈ db.requests, r.employee = employee
          ∧ (r.status = .PENDING ∨ r.status = .APPROVED)
          ∧ r.start_date ≤ e ∧ r.end_date ≥ s)
    ∧ (LeaveError.overlap ∈ (check_leave_eligibility db today employee lt s e dur).1.errors
        → (check_leave_eligibility db today employee lt s e dur).1.eligible = false) := by
  have hmem : LeaveError.overlap ∈ (check_leave_eligibility db today employee lt s e dur).1.errors
      ↔ overlapExists db.requests employee s e = true := by
    simp only [check_leave_eligibility]
    split_ifs <;> simp_all
  constructor
  · have hex : overlapExists db.requests employee s e = true
        ↔ ∃ r ∈ db.requests, r.employee = employee
            ∧ (r.status = .PENDING ∨ r.status = .APPROVED)
            ∧ r.start_date ≤ e ∧ r.end_date ≥ s := by
      simp [overlapExists, List.any_eq_true]
    exact hmem.trans hex
  · intro hov
    have hne : (check_leave_eligibility db today employee lt s e dur).1.errors ≠ [] :=
      List.ne_nil_of_mem hov
    have hproj : (check_leave_eligibility db today employee lt s e dur).1.eligible
        = ((check_leave_eligibility db today employee lt s e dur).1.errors).isEmpty := rfl
    rw [hproj]
    exact Bool.eq_false_iff.mpr fun hE => hne (List.isEmpty_iff.mp hE)

/-- C7 witness: the iff and the eligibility consequence at a concrete
overlapping proposal (existing pending request on days 40-44, proposal
42-46 overlapping it). -/
theorem c7_witness :
    LeaveError.overlap ∈ (check_leave_eligibility dbPending 30 1 ltFull 42 46 none).1.errors
    ∧ (check_leave_eligibility dbPending 30 1 ltFull 42 46 none).1.eligible = false := by
  have h := c7_overlap_iff dbPending 30 1 ltFull 42 46 none
  have hov : LeaveError.overlap
      ∈ (check_leave_eligibility dbPending 30 1 ltFull 42 46 none).1.errors :=
    h.1.mpr ⟨reqPending, by decide, by decide, Or.inl (by decide), by decide, by decide⟩
  exact ⟨hov, h.2 hov⟩

/-- C8: for an entitlement whose employee has a previous-year
entitlement, the carry-over computation yields max(0, previous
annual_holiday_entitlement − previous days_taken), and a supplied cap is
applied as a min. -/
theorem c8_carry_over_formula (db : DB) (ent prev : EmployeeEntitlement) (cap : Rat)
    (h : findEntitlement db.entitlements ent.employee (ent.year - 1) = some prev) :
    calculate_unused_days_from_previous_year db ent
      = max 0 (prev.annual_holiday_entitlement - days_taken db.requests prev.employee prev.year)
    ∧ (auto_calculate_carried_over_days db ent (some cap)).2
      = min (max 0 (prev.annual_holiday_entitlement
          - days_taken db.requests prev.employee prev.year)) cap
    ∧ (auto_calculate_carried_over_days db ent none).2
      = max 0 (prev.annual_holiday_entitlement
          - days_taken db.requests prev.employee prev.year) := by
  refine ⟨?_, ?_, ?_⟩ <;>
    simp [calculate_unused_days_from_previous_year, auto_calculate_carried_over_days, h]

/-- C8 witness: 33 annual days with 25 taken leave 8 unused; with cap 5
exactly 5 days carry over. -/
theorem c8_witness :
    calculate_unused_days_from_previous_year dbCarryEight entNext = 8
    ∧ (auto_calculate_carried_over_days dbCarryEight entNext (some 5)).2 = 5 := by
  have h := c8_carry_over_formula dbCarryEight entNext entPrev 5 (by decide)
  refine ⟨?_, ?_⟩
  · rw [h.1]
    decide
  · rw [h.2.1]
    decide

theorem requestsForYear_skip (pre post : List LeaveRequest) (r : LeaveRequest)
    (employee : Nat) (y : Int) (hr : ¬(r.employee = employee ∧ yearOf r.start_date = y)) :
    requestsForYear (pre ++ r :: post) employee y = requestsForYear (pre ++ post) employee y := by
  simp only [requestsForYear, List.filter_append]
  rw [List.filter_cons_of_neg (by simpa using hr)]

theorem sumByStatus_middle (pre post : List LeaveRequest) (r : LeaveRequest)
    (employee : Nat) (y : Int) (st : Status)
    (he : r.employee = employee) (hy : yearOf r.start_date = y) :
    sumByStatus (requestsForYear (pre ++ r :: post) employee y) st
      = sumByStatus (requestsForYear (pre ++ post) employee y) st
        + (if r.status = st then r.duration_days else 0) := by
  simp only [requestsForYear, sumByStatus, List.filter_append]
  rw [List.filter_cons_of_pos (by simp [he, hy])]
  by_cases hst : r.status = st
  · rw [List.filter_cons_of_pos (by simp [hst])]
    simp only [List.map_append, List.sum_append, List.map_cons, List.sum_cons, if_pos hst]
    ring
  · rw [List.filter_cons_of_neg (by simp [hst])]
    simp only [List.map_append, List.sum_append, if_neg hst]
    ring

theorem overlapExists_skip (pre post : List LeaveRequest) (r : LeaveRequest)
    (employee : Nat) (s e : Int)
    (hno : ¬(r.employee = employee ∧ (r.status = .PENDING ∨ r.status = .APPROVED)
        ∧ r.start_date ≤ e ∧ r.end_date ≥ s)) :
    overlapExists (pre ++ r :: post) employee s e = overlapExists (pre ++ post) employee s e := by
  simp only [overlapExists, List.any_append, List.any_cons]
  rw [decide_eq_false hno]
  simp

theorem summary_approved_days_proj (db : DB) (employee : Nat) (y : Int) :
    (get_employee_leave_summary db employee y).1.approved_days
      = sumByStatus (requestsForYear db.requests employee y) .APPROVED := rfl

theorem summary_pending_days_proj (db : DB) (employee : Nat) (y : Int) :
    (get_employee_leave_summary db employee y).1.pending_days
      = sumByStatus (requestsForYear db.requests employee y) .PENDING := rfl

theorem findEntitlement_some_key {ents : List EmployeeEntitlement} {employee : Nat}
    {year : Int} {ent : EmployeeEntitlement}
    (h : findEntitlement ents employee year = some ent) :
    ent.employee = employee ∧ ent.year = year := by
  simpa using List.find?_some h

/-- C10 counterexample: the approved request starting 0001-12-31 (Rata
Die 365, year 1) and ending 0002-01-01 (Rata Die 366, year 2) changes
year 2's remaining_days: when the year-2 entitlement is created lazily,
its auto-calculated carry-over is reduced by the request's duration, so
the request does contribute to the following year's remaining_days. -/
theorem c10_counterexample :
    yearOf reqCross.start_date = 1
    ∧ yearOf reqCross.end_date = 2
    ∧ (get_employee_leave_summary dbCross 1 2).1.remaining_days
        ≠ (get_employee_leave_summary dbCrossRemoved 1 2).1.remaining_days := by
  decide

set_option linter.unusedVariables false in
/-- C10 (corrected): provided the following year's entitlement row
already exists, a request starting in year y and ending in year y+1 is
attributed entirely to year y: the year-(y+1) summary is unchanged by
the request's presence, the year-y approved/pending aggregates include
its full duration according to its status, and the eligibility check for
a non-overlapping proposal starting in year y+1 is unchanged by the
request's presence.  (Without that entitlement row the lazy creation
recomputes the carry-over from year y's taken days, through which the
request does affect year y+1's remaining_days.) -/
theorem c10_start_year_attribution (db : DB) (employee : Nat) (r : LeaveRequest) (y : Int)
    (pre post : List LeaveRequest) (ent : EmployeeEntitlement)
    (hsplit : db.requests = pre ++ r :: post)
    (hemp : r.employee = employee)
    (hys : yearOf r.start_date = y)
    (hye : yearOf r.end_date = y + 1)
    (hent : findEntitlement db.entitlements employee (y + 1) = some ent) :
    (get_employee_leave_summary db employee (y + 1)).1
        = (get_employee_leave_summary { db with requests := pre ++ post } employee (y + 1)).1
    ∧ (get_employee_leave_summary db employee y).1.approved_days
        = (get_employee_leave_summary { db with requests := pre ++ post }
            employee y).1.approved_days
          + (if r.status = .APPROVED then r.duration_days else 0)
    ∧ (get_employee_leave_summary db employee y).1.pending_days
        = (get_employee_leave_summary { db with requests := pre ++ post }
            employee y).1.pending_days
          + (if r.status = .PENDING then r.duration_days else 0)
    ∧ (∀ today lt s e dur, yearOf s = y + 1 → ¬(r.start_date ≤ e ∧ r.end_date ≥ s) →
        (check_leave_eligibility db today employee lt s e dur).1
          = (check_leave_eligibility { db with requests := pre ++ post }
              today employee lt s e dur).1) := by
  obtain ⟨hee, hey⟩ := findEntitlement_some_key hent
  have hskip : requestsForYear (pre ++ r :: post) employee (y + 1)
      = requestsForYear (pre ++ post) employee (y + 1) := by
    refine requestsForYear_skip pre post r employee (y + 1) ?_
    rintro ⟨-, h2⟩
    exact absurd (hys.symm.trans h2) (by omega)
  have hsum1 : (get_employee_leave_summary db employee (y + 1)).1
      = (get_employee_leave_summary { db with requests := pre ++ post } employee (y + 1)).1 := by
    simp only [get_employee_leave_summary, hent, utilizationRate, days_taken]
    rw [hsplit, hee, hey, hskip]
  refine ⟨hsum1, ?_, ?_, ?_⟩
  · rw [summary_approved_days_proj, summary_approved_days_proj, hsplit]
    exact sumByStatus_middle pre post r employee y .APPROVED hemp hys
  · rw [summary_pending_days_proj, summary_pending_days_proj, hsplit]
    exact sumByStatus_middle pre post r employee y .PENDING hemp hys
  · intro today lt s e dur hs hnov
    have hover : overlapExists (pre ++ r :: post) employee s e
        = overlapExists (pre ++ post) employee s e :=
      overlapExists_skip pre post r employee s e fun hcon => hnov hcon.2.2
    simp only [check_leave_eligibility]
    rw [hsplit, hs, hover, hsum1]
    by_cases ha : lt.affects_entitlement = true <;> simp [ha]

/-- C10 witness: the amended claim applied to the database with both
entitlement rows present and the year-crossing request split out. -/
theorem c10_witness :
    (get_employee_leave_summary dbCrossBoth 1 2).1
        = (get_employee_leave_summary
            { dbCrossBoth with requests := ([] : List LeaveRequest) ++ [] } 1 2).1
    ∧ (get_employee_leave_summary dbCrossBoth 1 1).1.approved_days
        = (get_employee_leave_summary
            { dbCrossBoth with requests := ([] : List LeaveRequest) ++ [] } 1 1).1.approved_days
          + (if reqCross.status = .APPROVED then reqCross.duration_days else 0)
    ∧ (get_employee_leave_summary dbCrossBoth 1 1).1.pending_days
        = (get_employee_leave_summary
            { dbCrossBoth with requests := ([] : List LeaveRequest) ++ [] } 1 1).1.pending_days
          + (if reqCross.status = .PENDING then reqCross.duration_days else 0)
    ∧ (check_leave_eligibility dbCrossBoth 30 1 ltFull 400 404 none).1
        = (check_leave_eligibility
            { dbCrossBoth with requests := ([] : List LeaveRequest) ++ [] }
            30 1 ltFull 400 404 none).1 := by
  have h := c10_start_year_attribution dbCrossBoth 1 reqCross 1 [] [] entYearTwo rfl rfl
    (by decide) (by decide) (by decide)
  exact ⟨h.1, h.2.1, h.2.2.1, h.2.2.2 30 ltFull 400 404 none (by decide) (by decide)⟩

end ManageHub
